import Mathlib

/-!
Shallow embedding of `src/main.go` of riqalter/simple-http-server-go, a static
file HTTP server with a generated directory listing and a media viewer.

Modelling conventions, used throughout:

* URL paths and filesystem paths are modelled as their `/`-separated segment
  lists: the URL path string "/a/b" is `["a", "b"]`, "/" is `[""]`, and a
  trailing slash contributes a final `""` segment ("/a/" is `["a", ""]`).
  The served root directory (`absDir` in `main`, produced by `filepath.Abs`,
  hence absolute and cleaned) is likewise a segment list.
* On Linux `filepath.Clean`/`filepath.Join` agree with `path.Clean`/`path.Join`;
  for a rooted path, `Clean` drops empty and "." segments and resolves ".."
  against the preceding segment (dropping it at the root).  `cleanSegs` below
  is this function on segment lists; `joinPath a b = cleanSegs (a ++ b)`
  models `filepath.Join` of an absolute cleaned prefix with a rooted suffix.
* Go's `mime.TypeByExtension` consults a system-dependent registry (builtin
  table plus files such as /etc/mime.types).  It is therefore a *parameter*
  `sysMime : String → String` of every function that resolves content types,
  returning "" for unknown extensions exactly as the Go function does.
  `builtinMime` below is the concrete registry in force when no system file
  is loaded (Go's builtin table), used for concrete evaluations.
* Fallible OS interactions are explicit data: `statFs` returns an `Option`,
  the result of `os.ReadDir` plus the per-entry `Info()` calls is passed to
  the directory lister as an `Except String (List DirEntry)` with
  `DirEntry.info = none` modelling a failed `Info()` call.
* The stdlib helpers the handler delegates to (`http.ServeFile`,
  `http.FileServer`, `net/http.DetectContentType`) are modelled from the Go
  standard library sources where their behaviour is observable through this
  program: the ".." rejection and "/index.html" redirect of `ServeFile`, the
  canonicalisation redirects and registry-then-sniff content type of the
  file server, and the content sniffing table of `DetectContentType`.
-/

/-! ### Path segment arithmetic (filepath.Clean / filepath.Join on rooted paths) -/

/-- Worker for `cleanSegs`: `acc` is the already-cleaned output.  An empty or
"." segment is dropped, ".." removes the last output segment (no-op at the
root), anything else is appended. -/
def cleanGo (acc : List String) : List String → List String
  | [] => acc
  | s :: rest =>
    if s = "" ∨ s = "." then cleanGo acc rest
    else if s = ".." then cleanGo acc.dropLast rest
    else cleanGo (acc ++ [s]) rest

/-- `filepath.Clean` on the segments of a rooted path: resolves "." and ".."
and drops empty segments; ".." at the root is dropped. -/
def cleanSegs (l : List String) : List String := cleanGo [] l

/-- `filepath.Join` of an absolute path `a` and a rooted suffix `b`
(Join concatenates and then Cleans the result). -/
def joinPath (a b : List String) : List String := cleanSegs (a ++ b)

/-- True when no segment is empty, "." or ".." (the segments of a cleaned
absolute path). -/
def noSpecialB (l : List String) : Bool :=
  l.all fun s => !(s == "" || s == "." || s == "..")

/-- The dispatcher's thumbnail test `strings.HasPrefix(r.URL.Path, "/_thumbnail/")`:
the first segment is exactly `_thumbnail` and a slash follows it. -/
def isThumbTrigger : List String → Bool
  | "_thumbnail" :: _ :: _ => true
  | _ => false

/-- `containsDotDot` from net/http fs.go: some `/`-separated field of the URL
path equals "..".  `http.ServeFile` rejects such requests with 400. -/
def hasDotDotSeg (p : List String) : Bool := p.contains ".."

/-- The string form of an absolute path given by its segments. -/
def absStr (segs : List String) : String := "/" ++ String.intercalate "/" segs

theorem cleanGo_noSpecial (l : List String) :
    ∀ acc, noSpecialB acc = true → noSpecialB (cleanGo acc l) = true := by
  induction l with
  | nil => intro acc h; simpa [cleanGo] using h
  | cons s rest ih =>
    intro acc h
    by_cases h1 : s = "" ∨ s = "."
    · simpa [cleanGo, h1] using ih acc h
    · by_cases h2 : s = ".."
      · rw [cleanGo, if_neg h1, if_pos h2]
        refine ih _ ?_
        simp only [noSpecialB, List.all_eq_true] at h ⊢
        exact fun s hs => h s ((List.dropLast_sublist acc).mem hs)
      · rw [cleanGo, if_neg h1, if_neg h2]
        refine ih _ ?_
        simp only [noSpecialB, List.all_eq_true, List.mem_append, List.mem_singleton] at h ⊢
        rintro x (hx | rfl)
        · exact h x hx
        · push_neg at h1
          simp [h1.1, h1.2, h2]

theorem noSpecialB_cleanSegs (l : List String) : noSpecialB (cleanSegs l) = true :=
  cleanGo_noSpecial l [] rfl

theorem cleanGo_of_noSpecial (l : List String) :
    ∀ acc, noSpecialB l = true → cleanGo acc l = acc ++ l := by
  induction l with
  | nil => intro acc _; simp [cleanGo]
  | cons s rest ih =>
    intro acc h
    simp only [noSpecialB, List.all_cons, Bool.and_eq_true, Bool.not_eq_true',
      Bool.or_eq_false_iff, beq_eq_false_iff_ne, ne_eq] at h
    obtain ⟨⟨⟨h1, h2⟩, h3⟩, h4⟩ := h
    rw [cleanGo, if_neg (by tauto), if_neg h3]
    rw [ih (acc ++ [s]) (by simpa [noSpecialB] using h4)]
    simp

theorem cleanGo_append (a b : List String) :
    ∀ acc, cleanGo acc (a ++ b) = cleanGo (cleanGo acc a) b := by
  induction a with
  | nil => intro acc; simp [cleanGo]
  | cons s rest ih =>
    intro acc
    by_cases h1 : s = "" ∨ s = "."
    · simp [cleanGo, h1, ih]
    · by_cases h2 : s = ".."
      · simp [cleanGo, h1, h2, ih]
      · simp [cleanGo, h1, h2, ih]

/-- When the root is a cleaned absolute path and the suffix is already
cleaned, joining resolves to plain concatenation. -/
theorem joinPath_eq_append (root c : List String)
    (hr : noSpecialB root = true) (hc : noSpecialB c = true) :
    joinPath root c = root ++ c := by
  unfold joinPath cleanSegs
  rw [cleanGo_append, cleanGo_of_noSpecial root [] hr, List.nil_append,
    cleanGo_of_noSpecial c root hc]

/-! ### Byte strings and Go string comparison

Go compares strings bytewise (UTF-8).  UTF-8 byte order coincides with code
point order, so comparing the code point sequences is the same relation. -/

/-- The byte/code point sequence of a string (for the ASCII data handled in
this development the two coincide). -/
def strBytes (s : String) : List Nat := s.data.map Char.toNat

/-- Strict lexicographic order on byte sequences: Go's `<` on strings. -/
def lexLtN : List Nat → List Nat → Bool
  | _, [] => false
  | [], _ :: _ => true
  | a :: as, b :: bs =>
    if a < b then true
    else if b < a then false
    else lexLtN as bs

/-- Go's `<` on strings (bytewise lexicographic). -/
def strLt (a b : String) : Bool := lexLtN (strBytes a) (strBytes b)

/-- `strings.HasPrefix`, on the character data (kernel-reducible). -/
def strHasPre (pre s : String) : Bool := pre.data.isPrefixOf s.data

theorem lexLtN_asymm : ∀ a b, lexLtN a b = true → lexLtN b a = false := by
  intro a
  induction a with
  | nil => intro b _; cases b <;> simp [lexLtN]
  | cons x xs ih =>
    intro b hab
    cases b with
    | nil => simp [lexLtN] at hab
    | cons y ys =>
      simp only [lexLtN] at hab ⊢
      by_cases hxy : x < y
      · simp [hxy, Nat.lt_asymm hxy, Nat.ne_of_lt hxy]
      · by_cases hyx : y < x
        · simp [hxy, hyx] at hab
        · have hne : ¬ y < x := hyx
          simp only [hxy, if_false, hyx, if_false] at hab
          simp [hxy, hyx, ih ys hab]

theorem lexLtN_negtrans :
    ∀ a b c, lexLtN b a = false → lexLtN c b = false → lexLtN c a = false := by
  intro a
  induction a with
  | nil =>
    intro b c _ _
    cases c <;> rfl
  | cons x xs ih =>
    intro b c hba hcb
    cases b with
    | nil => simp [lexLtN] at hba
    | cons y ys =>
      cases c with
      | nil => simp [lexLtN] at hcb
      | cons z zs =>
        simp only [lexLtN] at hba hcb ⊢
        by_cases hyx : y < x
        · simp [hyx] at hba
        · by_cases hzy : z < y
          · simp [hzy] at hcb
          · -- x ≤ y and y ≤ z, hence z cannot be below x
            have hxy' : x ≤ y := Nat.le_of_not_lt hyx
            have hyz' : y ≤ z := Nat.le_of_not_lt hzy
            have hzx : ¬ z < x := Nat.not_lt.mpr (Nat.le_trans hxy' hyz')
            by_cases hxz : x < z
            · simp [hzx, hxz]
            · have hnxy : ¬ x < y := by omega
              have hnyz : ¬ y < z := by omega
              simp only [hyx, if_false, hnxy, if_false] at hba
              simp only [hzy, if_false, hnyz, if_false] at hcb
              simp [hzx, hxz, ih ys zs hba hcb]

theorem strLt_asymm (a b : String) (h : strLt a b = true) : strLt b a = false :=
  lexLtN_asymm _ _ h

theorem strLt_negtrans (a b c : String)
    (h1 : strLt b a = false) (h2 : strLt c b = false) : strLt c a = false :=
  lexLtN_negtrans _ _ _ h1 h2

/-- `strings.ToLower`, restricted to ASCII case mapping (`Char.toLower` maps
only A-Z); this agrees with Go on all ASCII names. -/
def lowerStr (s : String) : String := String.mk (s.data.map Char.toLower)

/-! ### filepath.Ext and filepath.Dir -/

/-- Worker for `extOf`, walking the characters from the end: the suffix
starting at the last dot of the final path element, or "". -/
def extScan : List Char → List Char → String
  | [], _ => ""
  | c :: rest, acc =>
    if c = '/' then ""
    else if c = '.' then String.mk ('.' :: acc)
    else extScan rest (c :: acc)

/-- `filepath.Ext`: the suffix of the final element beginning at its last
dot, "" when the final element has no dot. -/
def extOf (s : String) : String := extScan s.data.reverse []

/-- `filepath.Dir` on a cleaned relative path as the code uses it: everything
before the final `/`, or "." when there is no slash. -/
def dirStr (r : String) : String :=
  let parts := r.splitOn "/"
  if parts.length ≤ 1 then "." else String.intercalate "/" parts.dropLast

/-! ### getContentType (src/main.go lines 877-912) -/

/-- The fallback table in `getContentType`: the `switch strings.ToLower(ext)`
over common media extensions, defaulting to application/octet-stream. -/
def mediaFallback (e : String) : String :=
  if e = ".mp4" then "video/mp4"
  else if e = ".webm" then "video/webm"
  else if e = ".ogg" then "video/ogg"
  else if e = ".m4v" then "video/x-m4v"
  else if e = ".mkv" then "video/webm"
  else if e = ".mov" then "video/quicktime"
  else if e = ".mp3" then "audio/mpeg"
  else if e = ".jpg" ∨ e = ".jpeg" then "image/jpeg"
  else if e = ".png" then "image/png"
  else if e = ".gif" then "image/gif"
  else if e = ".webp" then "image/webp"
  else "application/octet-stream"

/-- `getContentType(path)`: the system registry (`mime.TypeByExtension`,
passed in as `sysMime`) first; on "" the fallback table on the lowercased
extension. -/
def getContentType (sysMime : String → String) (path : String) : String :=
  let ext := extOf path
  let contentType := sysMime ext
  if contentType = "" then mediaFallback (lowerStr ext) else contentType

theorem mediaFallback_ne_empty (e : String) : mediaFallback e ≠ "" := by
  unfold mediaFallback
  repeat' split
  all_goals decide

theorem getContentType_ne_empty (sysMime : String → String) (path : String) :
    getContentType sysMime path ≠ "" := by
  simp only [getContentType]
  split
  · exact mediaFallback_ne_empty _
  · assumption

/-! ### formatFileSize (src/main.go lines 864-875)

The Go function prints `%.1f` of `float64(size)/float64(div)`.  `fmtTenths`
models that as correctly-rounded (round half to even) decimal formatting of
the exact rational `num/den`; it agrees with Go whenever the operands and
quotient are exactly representable, which holds at every input evaluated in
this development (the quotient is exactly 1 there). -/

/-- One-decimal fixed-point rendering of `num/den`, round half to even. -/
def fmtTenths (num den : Nat) : String :=
  let q := num * 10 / den
  let r := num * 10 % den
  let t :=
    if 2 * r < den then q
    else if den < 2 * r then q + 1
    else if q % 2 = 0 then q else q + 1
  toString (t / 10) ++ "." ++ toString (t % 10)

/-- Structural worker for `fsLoop`: `fuel` only bounds the recursion depth
(any `fuel ≥ n` gives the loop's value, see `fsLoop_unfold`), keeping the
definition kernel-reducible. -/
def fsLoopFuel : Nat → Nat → Nat → Nat → Nat × Nat
  | 0, _, div, exp => (div, exp)
  | fuel + 1, n, div, exp =>
    if 1024 ≤ n then fsLoopFuel fuel (n / 1024) (div * 1024) (exp + 1) else (div, exp)

/-- The `for n := size / unit; n >= unit; n /= unit` loop of `formatFileSize`:
returns the final `(div, exp)`.  Only entered with `n = size/1024` for a
positive `size`, so `Nat` suffices (all involved int64 values are
nonnegative and far from overflow, see `c9_formatFileSize_safe`). -/
def fsLoop (n div exp : Nat) : Nat × Nat := fsLoopFuel n n div exp

theorem fsLoopFuel_congr :
    ∀ fuel fuel' n div exp, n ≤ fuel → n ≤ fuel' →
      fsLoopFuel fuel n div exp = fsLoopFuel fuel' n div exp := by
  intro fuel
  induction fuel with
  | zero =>
    intro fuel' n div exp h _
    interval_cases n
    cases fuel' <;> simp [fsLoopFuel]
  | succ f ih =>
    intro fuel' n div exp h h'
    by_cases hn : 1024 ≤ n
    · obtain ⟨f', rfl⟩ : ∃ f', fuel' = f' + 1 := ⟨fuel' - 1, by omega⟩
      rw [fsLoopFuel, fsLoopFuel, if_pos hn, if_pos hn]
      have hd : n / 1024 < n := Nat.div_lt_self (by omega) (by omega)
      exact ih f' (n / 1024) _ _ (by omega) (by omega)
    · cases fuel' with
      | zero =>
        interval_cases n
        simp [fsLoopFuel]
      | succ f' => rw [fsLoopFuel, fsLoopFuel, if_neg hn, if_neg hn]

/-- `fsLoop` satisfies the loop's natural recurrence: it is exactly the
`for` loop of `formatFileSize`. -/
theorem fsLoop_unfold (n div exp : Nat) :
    fsLoop n div exp =
      if 1024 ≤ n then fsLoop (n / 1024) (div * 1024) (exp + 1) else (div, exp) := by
  by_cases hn : 1024 ≤ n
  · obtain ⟨m, rfl⟩ : ∃ m, n = m + 1 := ⟨n - 1, by omega⟩
    rw [if_pos hn]
    unfold fsLoop
    rw [fsLoopFuel, if_pos hn]
    exact fsLoopFuel_congr m ((m + 1) / 1024) ((m + 1) / 1024) _ _
      (by have := Nat.div_lt_self (show 0 < m + 1 by omega) (show 1 < 1024 by omega); omega)
      (Nat.le_refl _)
  · rw [if_neg hn]
    unfold fsLoop
    cases n with
    | zero => rfl
    | succ m => rw [fsLoopFuel, if_neg hn]

/-- The unit-letter index `exp` that `formatFileSize` computes for `size`
(meaningful when `1024 ≤ size`; it indexes the byte string "KMGTPE"). -/
def fsExp (size : Int) : Nat := (fsLoop (size.toNat / 1024) 1024 0).2

/-- `formatFileSize(size int64)`.  The `"KMGTPE"[exp]` indexing panics in Go
when `exp ≥ 6`; the model totalises it with a `'?'` default, and
`c9_formatFileSize_safe` proves the default is unreachable for int64
inputs. -/
def formatFileSize (size : Int) : String :=
  if size < 1024 then toString size ++ " B"
  else
    let de := fsLoop (size.toNat / 1024) 1024 0
    fmtTenths size.toNat de.1 ++ " " ++
      String.mk [(['K', 'M', 'G', 'T', 'P', 'E'].getD de.2 '?'), 'i', 'B']

theorem fsLoop_exp_le (k : Nat) :
    ∀ n div exp, n < 1024 ^ (k + 1) → (fsLoop n div exp).2 ≤ exp + k := by
  induction k with
  | zero =>
    intro n div exp h
    rw [fsLoop_unfold, if_neg (by omega)]
    simp
  | succ k ih =>
    intro n div exp h
    by_cases hn : 1024 ≤ n
    · rw [fsLoop_unfold, if_pos hn]
      have hlt : n / 1024 < 1024 ^ (k + 1) := by
        have : n < 1024 ^ (k + 1) * 1024 := by
          calc n < 1024 ^ (k + 1 + 1) := h
          _ = 1024 ^ (k + 1) * 1024 := by ring
        omega
      have := ih (n / 1024) (div * 1024) (exp + 1) hlt
      omega
    · rw [fsLoop_unfold, if_neg hn]
      omega

/-! ### Content sniffing (net/http DetectContentType, sniff.go)

The raw-transfer route (`http.FileServer` → `serveContent`) and nothing else
in the program falls back to content sniffing when the MIME registry has no
entry for the extension.  The port below follows Go's `sniff.go`: strip
leading whitespace for the signatures that ask for it, try each signature in
order, return `application/octet-stream` when none matches.  Bytes are `Nat`
values below 256. -/

/-- Whitespace bytes ignored by the sniffing algorithm: \t \n \x0c \r space. -/
def isWSByte (b : Nat) : Bool := b = 9 || b = 10 || b = 12 || b = 13 || b = 32

/-- `data[firstNonWS:]`: the input with leading whitespace bytes removed. -/
def dropWS (l : List Nat) : List Nat := l.dropWhile isWSByte

/-- Masked signature check: every pattern byte must equal the corresponding
data byte ANDed with the mask byte; fails when the data is too short or the
mask and pattern lengths differ. -/
def maskedCheck : List Nat → List Nat → List Nat → Bool
  | [], [], _ => true
  | m :: ms, q :: qs, d :: ds => (Nat.land d m == q) && maskedCheck ms qs ds
  | _, _, _ => false

/-- HTML tag signature check on whitespace-stripped data: case-insensitive
match of the tag (uppercase pattern letters fold the data byte with
`& 0xDF`), and the byte after the tag must be a space or a closing angle
bracket. -/
def htmlCheck : List Nat → List Nat → Bool
  | [], d =>
    match d with
    | [] => false
    | b :: _ => b = 32 || b = 62
  | q :: qs, d =>
    match d with
    | [] => false
    | b :: bs => ((if 65 ≤ q ∧ q ≤ 90 then Nat.land b 0xDF else b) == q) && htmlCheck qs bs

/-- Big-endian 32-bit value of the first four bytes. -/
def be32 : List Nat → Nat
  | a :: b :: c :: d :: _ => ((a * 256 + b) * 256 + c) * 256 + d
  | _ => 0

/-- The brand scan of Go's `mp4Sig.match`: walk the compatible brands of the
`ftyp` box four bytes at a time (skipping the minor version at offset 12)
looking for the ASCII prefix "mp4". -/
def mp4Scan (data : List Nat) (st boxSize : Nat) : Bool :=
  if h : st < boxSize then
    if st = 12 then mp4Scan data (st + 4) boxSize
    else if (data.drop st).take 3 = [109, 112, 52] then true
    else mp4Scan data (st + 4) boxSize
  else false
termination_by boxSize - st
decreasing_by all_goals omega

/-- Go's `mp4Sig.match`: an `ftyp` box whose size is a multiple of four and
fits the data, with some compatible brand starting with "mp4". -/
def matchMp4 (data : List Nat) : Bool :=
  if data.length < 12 then false
  else
    let boxSize := be32 (data.take 4)
    if data.length < boxSize ∨ boxSize % 4 ≠ 0 then false
    else if (data.drop 4).take 4 ≠ [102, 116, 121, 112] then false
    else mp4Scan data 8 boxSize

/-- Binary bytes as classified by Go's `textSig`: anything containing one of
these is not plain text. -/
def isBinaryByte (b : Nat) : Bool :=
  b ≤ 8 || b = 11 || (14 ≤ b && b ≤ 26) || (28 ≤ b && b ≤ 31)

/-- One entry of the sniffing table. -/
inductive Sig
  | html (pat : List Nat)
  | masked (mask pat : List Nat) (skipWS : Bool) (ct : String)
  | exactly (pat : List Nat) (ct : String)
  | mp4
  | text

/-- Evaluate one signature against the (already length-limited) data. -/
def sigMatch (data : List Nat) : Sig → Option String
  | .html pat => if htmlCheck pat (dropWS data) then some "text/html; charset=utf-8" else none
  | .masked mask pat sw ct =>
    if maskedCheck mask pat (if sw then dropWS data else data) then some ct else none
  | .exactly pat ct => if pat.isPrefixOf data then some ct else none
  | .mp4 => if matchMp4 data then some "video/mp4" else none
  | .text => if (dropWS data).all (fun b => !isBinaryByte b) then
      some "text/plain; charset=utf-8" else none

/-- An HTML tag signature from its ASCII tag text. -/
def htmlSig (s : String) : Sig := .html (strBytes s)

/-- An exact-prefix signature from ASCII pattern text. -/
def exactSig (s : String) (ct : String) : Sig := .exactly (strBytes s) ct

/-- Go's `sniffSignatures` table, in order. -/
def sniffList : List Sig :=
  [ htmlSig "<!DOCTYPE HTML", htmlSig "<HTML", htmlSig "<HEAD", htmlSig "<SCRIPT",
    htmlSig "<IFRAME", htmlSig "<H1", htmlSig "<DIV", htmlSig "<FONT", htmlSig "<TABLE",
    htmlSig "<A", htmlSig "<STYLE", htmlSig "<TITLE", htmlSig "<B", htmlSig "<BODY",
    htmlSig "<BR", htmlSig "<P", htmlSig "<!--",
    .masked [255, 255, 255, 255, 255] (strBytes "<?xml") true "text/xml; charset=utf-8",
    exactSig "%PDF-" "application/pdf",
    exactSig "%!PS-Adobe-" "application/postscript",
    -- UTF byte-order marks
    .masked [255, 255, 0, 0] [254, 255, 0, 0] false "text/plain; charset=utf-16be",
    .masked [255, 255, 0, 0] [255, 254, 0, 0] false "text/plain; charset=utf-16le",
    .masked [255, 255, 255, 0] [239, 187, 191, 0] false "text/plain; charset=utf-8",
    -- image formats
    .exactly [0, 0, 1, 0] "image/x-icon",
    .exactly [0, 0, 2, 0] "image/x-icon",
    exactSig "BM" "image/bmp",
    exactSig "GIF87a" "image/gif",
    exactSig "GIF89a" "image/gif",
    .masked [255, 255, 255, 255, 0, 0, 0, 0, 255, 255, 255, 255, 255, 255]
      (strBytes "RIFF" ++ [0, 0, 0, 0] ++ strBytes "WEBPVP") false "image/webp",
    .exactly [137, 80, 78, 71, 13, 10, 26, 10] "image/png",
    .exactly [255, 216, 255] "image/jpeg",
    -- audio and video formats
    .masked [255, 255, 255, 255] (strBytes ".snd") false "audio/basic",
    .masked [255, 255, 255, 255, 0, 0, 0, 0, 255, 255, 255, 255]
      (strBytes "FORM" ++ [0, 0, 0, 0] ++ strBytes "AIFF") false "audio/aiff",
    exactSig "ID3" "audio/mpeg",
    .exactly [79, 103, 103, 83, 0] "application/ogg",
    .exactly [77, 84, 104, 100, 0, 0, 0, 6] "audio/midi",
    .masked [255, 255, 255, 255, 0, 0, 0, 0, 255, 255, 255, 255]
      (strBytes "RIFF" ++ [0, 0, 0, 0] ++ strBytes "AVI ") false "video/avi",
    .masked [255, 255, 255, 255, 0, 0, 0, 0, 255, 255, 255, 255]
      (strBytes "RIFF" ++ [0, 0, 0, 0] ++ strBytes "WAVE") false "audio/wave",
    .mp4,
    .exactly [26, 69, 223, 163] "video/webm",
    -- font formats
    .masked (List.replicate 34 0 ++ [255, 255]) (List.replicate 34 0 ++ strBytes "LP")
      false "application/vnd.ms-fontobject",
    .exactly [0, 1, 0, 0] "font/ttf",
    exactSig "OTTO" "font/otf",
    exactSig "ttcf" "font/collection",
    exactSig "wOFF" "font/woff",
    exactSig "wOF2" "font/woff2",
    -- archives
    .exactly [31, 139, 8] "application/x-gzip",
    .exactly [80, 75, 3, 4] "application/zip",
    .exactly [82, 97, 114, 33, 26, 7, 0] "application/x-rar-compressed",
    .exactly [82, 97, 114, 33, 26, 7, 1, 0] "application/x-rar-compressed",
    .exactly [0, 97, 115, 109] "application/wasm",
    .text ]

/-- `http.DetectContentType`: consider at most 512 bytes, first matching
signature wins, otherwise application/octet-stream. -/
def detectContentType (data : List Nat) : String :=
  ((sniffList.findSome? (sigMatch (data.take 512)))).getD "application/octet-stream"

/-- The content type `serveContent` uses when the caller did not set one:
the registry by extension, else sniffing the first 512 bytes.  (When the
handler pre-sets a Content-Type header, as the thumbnail route does,
`serveContent` keeps it and this function is not consulted.) -/
def serveCtype (sysMime : String → String) (content : List Nat) (path : String) : String :=
  let ct := sysMime (extOf path)
  if ct = "" then detectContentType (content.take 512) else ct

/-! ### Data model (src/main.go lines 17-36) and the filesystem -/

/-- `FileInfo` from main.go: one render-ready directory entry. -/
structure FileInfo where
  Name : String
  IsDir : Bool
  Size : Int
  ModTime : Int
  Path : String
  IsImage : Bool
  IsVideo : Bool
  ContentType : String
  Extension : String
deriving DecidableEq

/-- `TemplateData` from main.go: the listing-page model. -/
structure TemplateData where
  Title : String
  CurrentPath : String
  ParentPath : String
  Files : List FileInfo
deriving DecidableEq

/-- The anonymous struct handed to the media-viewer template.  `ModTime` is
kept as the raw modification time; its `Format("Jan 02, 2006 15:04:05")`
rendering is pure presentation and not modelled. -/
structure MediaData where
  Name : String
  FilePath : String
  ParentPath : String
  IsImage : Bool
  IsVideo : Bool
  ContentType : String
  Size : String
  ModTime : Int
deriving DecidableEq

/-- One filesystem object: a regular file with its stat data and content
bytes, or a directory with its stat data. -/
inductive FsEntry
  | file (size modTime : Int) (content : List Nat)
  | dir (size modTime : Int)
deriving DecidableEq

/-- A filesystem: a finite map from cleaned absolute segment paths to
entries. -/
structure Fs where
  entries : List (List String × FsEntry)
deriving DecidableEq

/-- `os.Stat`: look the cleaned absolute path up in the filesystem. -/
def statFs (fs : Fs) (p : List String) : Option FsEntry :=
  (fs.entries.find? (fun kv => kv.1 == p)).map (·.2)

def FsEntry.isDirE : FsEntry → Bool
  | .file .. => false
  | .dir .. => true

def FsEntry.size : FsEntry → Int
  | .file s _ _ => s
  | .dir s _ => s

def FsEntry.mtime : FsEntry → Int
  | .file _ m _ => m
  | .dir _ m => m

def FsEntry.bytes : FsEntry → List Nat
  | .file _ _ c => c
  | .dir _ _ => []

/-- One result of `os.ReadDir` plus the subsequent `entry.Info()` call:
`info = none` models a failed `Info()` (the entry is skipped by the
lister). -/
structure DirEntry where
  name : String
  isDir : Bool
  info : Option (Int × Int)
deriving DecidableEq

/-- The `os.ReadDir` result the dispatcher obtains for an existing directory:
the entries one level below `target`, stat data always available. -/
def childEntries (fs : Fs) (target : List String) : List DirEntry :=
  fs.entries.filterMap fun kv =>
    if kv.1.dropLast = target then
      match kv.1.getLast? with
      | some n => some { name := n, isDir := kv.2.isDirE, info := some (kv.2.size, kv.2.mtime) }
      | none => none
    else none

/-! ### The sort of renderDirectoryListing (src/main.go lines 199-205) -/

/-- The `less` closure handed to `sort.Slice`: directories first, then
case-insensitive name order. -/
def fileLess (a b : FileInfo) : Bool :=
  if a.IsDir ≠ b.IsDir then a.IsDir
  else strLt (lowerStr a.Name) (lowerStr b.Name)

/-- The total preorder induced by `fileLess`: `a` may come before `b`.
`sort.Slice` guarantees exactly that the output is sorted for this
relation (it is not a stable sort, so nothing beyond this ordering is
specified); any sort for the same relation is therefore a faithful model. -/
def fileRel (a b : FileInfo) : Prop := fileLess b a = false

instance : DecidableRel fileRel := fun _ _ => instDecidableEqBool _ _

theorem fileRel_total (a b : FileInfo) : fileRel a b ∨ fileRel b a := by
  unfold fileRel
  by_cases h : fileLess b a = false
  · exact Or.inl h
  · right
    replace h : fileLess b a = true := by
      cases hx : fileLess b a <;> simp_all
    cases hab : a.IsDir <;> cases hbb : b.IsDir <;>
      simp_all [fileLess] <;>
      exact strLt_asymm _ _ h

theorem fileRel_trans (a b c : FileInfo)
    (hab : fileRel a b) (hbc : fileRel b c) : fileRel a c := by
  unfold fileRel fileLess at hab hbc ⊢
  cases ha : a.IsDir <;> cases hb : b.IsDir <;> cases hc : c.IsDir <;>
    simp_all <;>
    exact strLt_negtrans _ _ _ hab hbc

instance : IsTotal FileInfo fileRel := ⟨fileRel_total⟩

instance : IsTrans FileInfo fileRel := ⟨fun a b c => fileRel_trans a b c⟩

/-- The `sort.Slice` call, modelled as a sort for the induced relation. -/
def sortFiles (l : List FileInfo) : List FileInfo := List.insertionSort fileRel l

/-! ### renderDirectoryListing (src/main.go lines 152-231) -/

/-- `filepath.Join(relPath, name)` for a cleaned relative path and a plain
entry name. -/
def joinRel (rel name : String) : String :=
  if rel = "" then name else rel ++ "/" ++ name

/-- The per-entry body of the listing loop (lines 162-197): a failed
`entry.Info()` call makes the loop `continue`, dropping the entry; the
content type is resolved on the entry's absolute path, whose extension is
the extension of the entry name. -/
def processEntry (sysMime : String → String) (rel : String) (e : DirEntry) : Option FileInfo :=
  e.info.map fun i =>
    { Name := e.name
      IsDir := e.isDir
      Size := i.1
      ModTime := i.2
      Path := "/" ++ joinRel rel e.name
      IsImage := !e.isDir && strHasPre "image/" (getContentType sysMime e.name)
      IsVideo := !e.isDir && strHasPre "video/" (getContentType sysMime e.name)
      ContentType := if e.isDir then "" else getContentType sysMime e.name
      Extension := if e.isDir then "" else lowerStr (extOf e.name) }

/-- The parent-path computation of the listing page (lines 207-214). -/
def parentOf (rel : String) : String :=
  if rel = "" then ""
  else
    let pp := "/" ++ dirStr rel
    if pp = "/." then "/" else pp

/-! ### Responses

Terminal outcomes of one request, with the HTTP status they carry:
`notFound` is the 404 "File not found" error, `badRequest` the 400
"invalid URL path" error issued by `http.ServeFile` on a ".." path
element, `internalError` a 500 with the underlying error text,
`redirect` a 301 to the given location, and the remaining constructors
200 responses: a rendered listing page, a rendered media-viewer page, a
raw file transfer (content type as the file server resolves it), and a
thumbnail transfer (pre-set content type plus cache header).
`serveDir` abstracts `http.ServeFile` applied to a directory on the
thumbnail route (stdlib index/listing behaviour, reached by no claim). -/
inductive Response
  | notFound
  | badRequest
  | internalError (msg : String)
  | redirect (loc : String)
  | listing (d : TemplateData)
  | media (m : MediaData)
  | raw (path : List String) (contentType : String)
  | thumb (path : List String) (contentType cacheControl : String)
  | serveDir (path : List String)
deriving DecidableEq

/-- `renderDirectoryListing`, over the outcome of `os.ReadDir` + `Info()`:
a read failure is a 500 carrying the error text; otherwise the entries that
could be stat-ed are processed, sorted and rendered.  (The constant listing
template parses; template execution is modelled as succeeding.) -/
def renderDirectoryListing (sysMime : String → String)
    (readDir : Except String (List DirEntry)) (rel : String) : Response :=
  match readDir with
  | .error e => .internalError e
  | .ok entries =>
    .listing
      { Title := "Index of /" ++ rel
        CurrentPath := "/" ++ rel
        ParentPath := parentOf rel
        Files := sortFiles (entries.filterMap (processEntry sysMime rel)) }

/-! ### renderMediaViewer (src/main.go lines 233-472) -/

/-- `renderMediaViewer`: re-stat the file (404 on failure), then render the
single-file page model. -/
def renderMediaViewer (fs : Fs) (target : List String)
    (rel : String) (contentType : String) : Response :=
  match statFs fs target with
  | none => .notFound
  | some ent =>
    .media
      { Name := (target.getLast?).getD ""
        FilePath := "/" ++ rel
        ParentPath := "/" ++ (if dirStr rel = "." then "" else dirStr rel)
        IsImage := strHasPre "image/" contentType
        IsVideo := strHasPre "video/" contentType
        ContentType := contentType
        Size := formatFileSize ent.size
        ModTime := ent.mtime }

/-! ### The stdlib file server and ServeFile (net/http fs.go) -/

/-- `fileServer.ServeHTTP` on a URL path already known to name an existing
regular file: `serveFile` first redirects any URL ending in the magic
"/index.html" to "./", then (redirect=true for the FileServer handler)
redirects a file URL carrying a trailing slash to its canonical form;
otherwise the bytes are transferred with the registry-or-sniffed content
type. -/
def fileServerServe (p : List String) (target : List String) (ct : String) : Response :=
  let lastSeg := (p.getLast?).getD ""
  if lastSeg = "index.html" then .redirect "./"
  else if lastSeg = "" then .redirect ("../" ++ ((cleanSegs p).getLast?).getD "/")
  else .raw target ct

/-! ### serveThumbnail (src/main.go lines 131-150) -/

/-- `serveThumbnail`: strip the `/_thumbnail` marker (one segment), join the
remainder against the root, stat (404 on failure), set the resolved content
type and the 24h cache header, then `http.ServeFile` — which 400s on any
".." path element, redirects a "/index.html"-suffixed URL, serves a file
with the pre-set headers, and handles a directory with its own logic. -/
def serveThumbnail (sysMime : String → String) (fs : Fs) (root : List String)
    (p : List String) : Response :=
  let fullPath := joinPath root p.tail
  match statFs fs fullPath with
  | none => .notFound
  | some ent =>
    let contentType := getContentType sysMime (absStr fullPath)
    if hasDotDotSeg p then .badRequest
    else if (p.getLast?).getD "" = "index.html" then .redirect "./"
    else
      match ent with
      | .file _ _ _ => .thumb fullPath contentType "public, max-age=86400"
      | .dir _ _ => .serveDir fullPath

/-! ### handleRequest (src/main.go lines 77-128) -/

/-- The target `os.Stat` receives on the non-thumbnail routes:
`filepath.Join(rootDir, filepath.Clean(r.URL.Path))`. -/
def mainTarget (root p : List String) : List String := joinPath root (cleanSegs p)

/-- The filesystem path each route resolves and stats: the thumbnail route
joins the marker-stripped remainder, every other route joins the cleaned
URL path. -/
def resolvedTarget (root p : List String) : List String :=
  if isThumbTrigger p then joinPath root p.tail else mainTarget root p

/-- The `isMedia` test of the dispatcher (line 114): the resolved content
type names an image or a video. -/
def isMediaCT (ct : String) : Bool :=
  strHasPre "image/" ct || strHasPre "video/" ct

/-- `handleRequest`: the dispatcher.  `view` is `r.URL.Query().Get("view")`
("" when the parameter is absent).  `rel` below is
`filepath.Rel(rootDir, requestPath)` with "." mapped to "", which for the
cleaned joined path is the cleaned URL path re-joined with slashes. -/
def handleRequest (sysMime : String → String) (fs : Fs) (root : List String)
    (p : List String) (view : String) : Response :=
  if isThumbTrigger p then serveThumbnail sysMime fs root p
  else
    let requestPath := mainTarget root p
    let rel := String.intercalate "/" (cleanSegs p)
    match statFs fs requestPath with
    | none => .notFound
    | some (.dir _ _) =>
      renderDirectoryListing sysMime (.ok (childEntries fs requestPath)) rel
    | some (.file _ _ content) =>
      let contentType := getContentType sysMime (absStr requestPath)
      if view = "media" ∧ isMediaCT contentType = true then
        renderMediaViewer fs requestPath rel contentType
      else
        fileServerServe p requestPath (serveCtype sysMime content (absStr requestPath))

/-! ### A concrete MIME registry for evaluations

Go's builtin `mime` table (`builtinTypesLower`), which is the whole registry
when no system mapping file (/etc/mime.types etc.) is loaded.
`mime.TypeByExtension` lowercases the extension before this lookup. -/

/-- Go's builtin extension table; "" for everything else. -/
def builtinMime (e : String) : String :=
  let l := lowerStr e
  if l = ".avif" then "image/avif"
  else if l = ".css" then "text/css; charset=utf-8"
  else if l = ".gif" then "image/gif"
  else if l = ".htm" then "text/html; charset=utf-8"
  else if l = ".html" then "text/html; charset=utf-8"
  else if l = ".jpeg" then "image/jpeg"
  else if l = ".jpg" then "image/jpeg"
  else if l = ".js" then "text/javascript; charset=utf-8"
  else if l = ".json" then "application/json"
  else if l = ".mjs" then "text/javascript; charset=utf-8"
  else if l = ".pdf" then "application/pdf"
  else if l = ".png" then "image/png"
  else if l = ".svg" then "image/svg+xml"
  else if l = ".wasm" then "application/wasm"
  else if l = ".webp" then "image/webp"
  else if l = ".xml" then "text/xml; charset=utf-8"
  else ""

/-! ### Containment lemmas for the resolved targets -/

theorem cleanSegs_of_noSpecial (l : List String) (h : noSpecialB l = true) :
    cleanSegs l = l := by
  unfold cleanSegs
  rw [cleanGo_of_noSpecial l [] h, List.nil_append]

theorem cleanGo_keeps_prefix :
    ∀ (l : List String), l.contains ".." = false → ∀ acc, acc <+: cleanGo acc l := by
  intro l
  induction l with
  | nil => intro _ acc; simp [cleanGo]
  | cons s rest ih =>
    intro hl acc
    have hs : s ≠ ".." := by
      intro hq
      simp [hq, List.contains_cons] at hl
    have hrest : rest.contains ".." = false := by
      simp [List.contains_cons] at hl
      simpa using hl.2
    by_cases h1 : s = "" ∨ s = "."
    · rw [cleanGo, if_pos h1]
      exact ih hrest acc
    · rw [cleanGo, if_neg h1, if_neg hs]
      exact (List.prefix_append acc [s]).trans (ih hrest (acc ++ [s]))

/-- On the non-thumbnail routes the target `os.Stat` receives always lies
below the served root, whatever the URL path: `filepath.Clean` anchors every
".." at the URL root before the join. -/
theorem mainRoute_contained (root p : List String) (hr : noSpecialB root = true) :
    root <+: mainTarget root p := by
  unfold mainTarget
  rw [joinPath_eq_append root _ hr (noSpecialB_cleanSegs p)]
  exact List.prefix_append _ _

/-- The thumbnail route's target stays below the root whenever the
marker-stripped remainder carries no ".." segment — in particular for every
path the net/http mux forwards, since the mux redirects non-canonical
paths instead of delivering them. -/
theorem thumbRoute_contained_of_no_dotdot (root p : List String)
    (hr : noSpecialB root = true) (hp : (p.tail).contains ".." = false) :
    root <+: joinPath root p.tail := by
  unfold joinPath cleanSegs
  rw [cleanGo_append, cleanGo_of_noSpecial root [] hr, List.nil_append]
  exact cleanGo_keeps_prefix p.tail hp root

/-! ### Concrete fixtures for the closed evaluations -/

/-- A served root `/srv/root`. -/
def root0 : List String := ["srv", "root"]

/-- A filesystem where `/etc/passwd` exists outside the served root (the
root itself is present and empty). -/
def fsEtc : Fs :=
  ⟨[(["srv", "root"], .dir 4096 0), (["etc", "passwd"], .file 42 0 [114, 111, 111, 116])]⟩

/-- A filesystem holding only the empty served root. -/
def fsEmpty : Fs := ⟨[(["srv", "root"], .dir 4096 0)]⟩

/-- A served root containing the file `index.html` (content "hi"). -/
def fsIdx : Fs :=
  ⟨[(["srv", "root"], .dir 4096 0), (["srv", "root", "index.html"], .file 2 0 [104, 105])]⟩

/-- A served root containing a regular file named `_thumbnail`
(text content "hi"). -/
def fsUnder : Fs :=
  ⟨[(["srv", "root"], .dir 4096 0), (["srv", "root", "_thumbnail"], .file 2 0 [104, 105])]⟩

/-- A served root containing `pic.xyz`: an extension no registry knows, with
PNG magic-number content. -/
def fsPng : Fs :=
  ⟨[(["srv", "root"], .dir 4096 0),
    (["srv", "root", "pic.xyz"], .file 8 0 [137, 80, 78, 71, 13, 10, 26, 10])]⟩

/-- A served root containing `cat.jpg` with JPEG magic-number content. -/
def fsJpg : Fs :=
  ⟨[(["srv", "root"], .dir 4096 0),
    (["srv", "root", "cat.jpg"], .file 3 0 [255, 216, 255])]⟩

/-! ### Claims -/

/-- C3: the Content-Type Resolver is total — it returns a non-empty MIME
string for every path and every registry — and, whenever the system
registry yields nothing, it returns exactly the documented fallback for
the lowercased extension: the fixed table values for mp4, webm, ogg, m4v,
mkv, mov, mp3, jpg/jpeg, png, gif and webp, and application/octet-stream
for everything else. -/
theorem c3_contentType_total_fallbacks :
    (∀ (sysMime : String → String) (path : String), getContentType sysMime path ≠ "") ∧
    (∀ (sysMime : String → String) (path : String), sysMime (extOf path) = "" →
      getContentType sysMime path = mediaFallback (lowerStr (extOf path))) ∧
    mediaFallback ".mp4" = "video/mp4" ∧
    mediaFallback ".webm" = "video/webm" ∧
    mediaFallback ".ogg" = "video/ogg" ∧
    mediaFallback ".m4v" = "video/x-m4v" ∧
    mediaFallback ".mkv" = "video/webm" ∧
    mediaFallback ".mov" = "video/quicktime" ∧
    mediaFallback ".mp3" = "audio/mpeg" ∧
    mediaFallback ".jpg" = "image/jpeg" ∧
    mediaFallback ".jpeg" = "image/jpeg" ∧
    mediaFallback ".png" = "image/png" ∧
    mediaFallback ".gif" = "image/gif" ∧
    mediaFallback ".webp" = "image/webp" ∧
    (∀ e, e ∉ [".mp4", ".webm", ".ogg", ".m4v", ".mkv", ".mov", ".mp3", ".jpg", ".jpeg",
      ".png", ".gif", ".webp"] → mediaFallback e = "application/octet-stream") := by
  refine ⟨getContentType_ne_empty, ?_, by decide, by decide, by decide, by decide, by decide,
    by decide, by decide, by decide, by decide, by decide, by decide, by decide, ?_⟩
  · intro sysMime path h
    simp [getContentType, h]
  · intro e he
    simp only [List.mem_cons, List.not_mem_nil, or_false, not_or] at he
    obtain ⟨e1, e2, e3, e4, e5, e6, e7, e8, e9, e10, e11, e12⟩ := he
    simp [mediaFallback, e1, e2, e3, e4, e5, e6, e7, e8, e9, e10, e11, e12]

/-- Witness for C3 at a concrete registry and path: with an empty registry
the resolver maps `movie.mkv` to the documented mkv fallback. -/
theorem c3_contentType_total_fallbacks_witness :
    getContentType (fun _ => "") "/srv/root/movie.mkv" = "video/webm" := by
  rw [c3_contentType_total_fallbacks.2.1 (fun _ => "") "/srv/root/movie.mkv" rfl]
  decide

/-- C4: every listing the Directory Lister produces is sorted so that any
entry pair in order satisfies: a directory never follows a non-directory,
and two entries of the same kind have non-decreasing lowercased names
(`strLt lower-later lower-earlier = false` is "later is not below earlier"
in Go's bytewise string order). -/
theorem c4_listing_sorted :
    ∀ (sysMime : String → String) (rel : String) (entries : List DirEntry),
      ∃ d, renderDirectoryListing sysMime (.ok entries) rel = Response.listing d ∧
        List.Pairwise (fun a b =>
          (b.IsDir = true → a.IsDir = true) ∧
          (a.IsDir = b.IsDir → strLt (lowerStr b.Name) (lowerStr a.Name) = false)) d.Files := by
  intro sysMime rel entries
  refine ⟨_, rfl, ?_⟩
  have hs := List.sorted_insertionSort fileRel (entries.filterMap (processEntry sysMime rel))
  refine List.Pairwise.imp ?_ hs
  intro a b hrel
  cases hab : a.IsDir <;> cases hbb : b.IsDir <;>
    simp_all [fileRel, fileLess]

/-- C6: a request whose resolved target does not exist in the filesystem is
answered with the 404 Not Found error on every route: thumbnail, directory
listing and file transfer all stat the resolved target first and bail out
on failure. -/
theorem c6_nonexistent_notFound :
    ∀ (sysMime : String → String) (fs : Fs) (root p : List String) (view : String),
      statFs fs (resolvedTarget root p) = none →
      handleRequest sysMime fs root p view = Response.notFound := by
  intro sysMime fs root p view h
  unfold resolvedTarget at h
  unfold handleRequest serveThumbnail
  by_cases ht : isThumbTrigger p = true
  · rw [if_pos ht] at h
    rw [if_pos ht]
    dsimp only
    rw [h]
  · rw [if_neg ht] at h
    rw [if_neg ht]
    dsimp only
    rw [h]

/-- Witness for C6: requesting `/nope.txt` against an empty served root. -/
theorem c6_nonexistent_notFound_witness :
    handleRequest builtinMime fsEmpty root0 ["nope.txt"] "" = Response.notFound :=
  c6_nonexistent_notFound builtinMime fsEmpty root0 ["nope.txt"] "" (by decide)

/-- C7: the size formatter renders every byte count between 0 and 1023 as
the decimal count followed by " B", renders 1024 as "1.0 KiB" and 1048576
as "1.0 MiB". -/
theorem c7_formatFileSize_values :
    (∀ n : Int, 0 ≤ n → n ≤ 1023 → formatFileSize n = toString n ++ " B") ∧
    formatFileSize 1024 = "1.0 KiB" ∧ formatFileSize 1048576 = "1.0 MiB" := by
  refine ⟨?_, by decide, by decide⟩
  intro n h1 h2
  unfold formatFileSize
  rw [if_pos (by omega)]

/-- Witness for C7 at the byte count 7. -/
theorem c7_formatFileSize_values_witness :
    formatFileSize 7 = toString (7 : Int) ++ " B" :=
  c7_formatFileSize_values.1 7 (by decide) (by decide)

/-- The processed entries are exactly the stat-able entries, in order. -/
theorem processEntry_names (sysMime : String → String) (rel : String) :
    ∀ entries : List DirEntry,
      (entries.filterMap (processEntry sysMime rel)).map FileInfo.Name =
        (entries.filter (fun en => en.info.isSome)).map DirEntry.name := by
  intro entries
  induction entries with
  | nil => rfl
  | cons e es ih => cases hi : e.info <;> simp [processEntry, hi, ih]

/-- C8: a failed directory read aborts the listing with a 500 carrying the
underlying error text, while a child entry whose `Info()` stat fails is
silently dropped: the rendered listing still succeeds and its file names
are exactly (up to the sort's reordering) the names of the entries whose
stat succeeded. -/
theorem c8_lister_error_handling :
    (∀ (sysMime : String → String) (rel e : String),
      renderDirectoryListing sysMime (.error e) rel = Response.internalError e) ∧
    (∀ (sysMime : String → String) (rel : String) (entries : List DirEntry),
      ∃ d, renderDirectoryListing sysMime (.ok entries) rel = Response.listing d ∧
        (d.Files.map FileInfo.Name).Perm
          ((entries.filter (fun en => en.info.isSome)).map DirEntry.name)) := by
  constructor
  · intro sysMime rel e
    rfl
  · intro sysMime rel entries
    refine ⟨_, rfl, ?_⟩
    have hperm := (List.perm_insertionSort fileRel
      (entries.filterMap (processEntry sysMime rel))).map FileInfo.Name
    refine hperm.trans ?_
    exact processEntry_names sysMime rel entries ▸ List.Perm.refl _

/-- C9: the size formatter is defined on every int64 input: any size below
1024 (zero and negative sizes included) takes the "<n> B" branch, and for
any size up to the maximum int64 the computed unit exponent stays at most
5, within the six unit letters K M G T P E — the `"KMGTPE"[exp]` indexing
cannot go out of bounds. -/
theorem c9_formatFileSize_safe :
    ∀ size : Int, -(2 ^ 63) ≤ size → size < 2 ^ 63 →
      (size < 1024 → formatFileSize size = toString size ++ " B") ∧
      fsExp size ≤ 5 ∧ (['K', 'M', 'G', 'T', 'P', 'E'] : List Char).length = 6 := by
  intro size h1 h2
  refine ⟨?_, ?_, rfl⟩
  · intro h
    unfold formatFileSize
    rw [if_pos h]
  · have hn : size.toNat < 2 ^ 63 := by omega
    have hdiv : size.toNat / 1024 < 1024 ^ (5 + 1) := by
      rw [Nat.div_lt_iff_lt_mul (by norm_num : (0 : Nat) < 1024)]
      calc size.toNat < 2 ^ 63 := hn
        _ ≤ 1024 ^ (5 + 1) * 1024 := by norm_num
    simpa using fsLoop_exp_le 5 (size.toNat / 1024) 1024 0 hdiv

/-- Witness for C9 at the negative size -7. -/
theorem c9_formatFileSize_safe_witness :
    formatFileSize (-7) = toString (-7 : Int) ++ " B" :=
  (c9_formatFileSize_safe (-7) (by norm_num) (by norm_num)).1 (by norm_num)

/-- C1 (failing evaluation): the thumbnail route does not re-anchor the
marker-stripped remainder before joining, so the handler invoked with URL
path `/_thumbnail/../../etc/passwd` resolves and stats `/etc/passwd` —
outside the served root `/srv/root`.  The response is not the uniform 404
the containment claim requires: it is 400 (from `http.ServeFile`'s ".."
check, the only thing that stops the content from being streamed) when the
outside file exists and 404 when it does not, an existence oracle for paths
outside the root.  (In the deployed configuration Go's ServeMux redirects
non-canonical paths before they reach the handler, which masks the missing
check at the transport layer.) -/
theorem c1_thumbnail_route_escape :
    resolvedTarget root0 ["_thumbnail", "..", "..", "etc", "passwd"] = ["etc", "passwd"] ∧
    (root0.isPrefixOf ["etc", "passwd"]) = false ∧
    statFs fsEtc ["etc", "passwd"] = some (.file 42 0 [114, 111, 111, 116]) ∧
    handleRequest builtinMime fsEtc root0 ["_thumbnail", "..", "..", "etc", "passwd"] "" =
      Response.badRequest ∧
    handleRequest builtinMime fsEmpty root0 ["_thumbnail", "..", "..", "etc", "passwd"] "" =
      Response.notFound := by
  decide

/-- C2 (counterexample): `/index.html` resolves to an existing regular file
which is neither an image nor a video, and the request carries no
`view=media` — yet the response is not a raw transfer: the stdlib file
server redirects the magic index page to "./". -/
theorem c2_counterexample_index_html :
    statFs fsIdx (mainTarget root0 ["index.html"]) = some (.file 2 0 [104, 105]) ∧
    handleRequest builtinMime fsIdx root0 ["index.html"] "" = Response.redirect "./" ∧
    (∀ target ct, Response.redirect "./" ≠ Response.raw target ct) := by
  refine ⟨by decide, by decide, ?_⟩
  intro target ct
  simp

/-- C2 (amended): for a non-thumbnail request resolving to an existing
regular file, the dispatcher renders the media viewer exactly when the
resolved content type has prefix image/ or video/ and the `view` query
parameter equals "media"; in every other case the request is handed to the
file-serving primitive with the file's registry-or-sniffed content type —
which transfers the raw bytes except on its two canonicalisation redirects
(a URL ending in the magic "index.html" segment, or a file URL with a
trailing slash). -/
theorem c2_media_iff_raw :
    ∀ (sysMime : String → String) (fs : Fs) (root p : List String) (view : String)
      (sz mt : Int) (content : List Nat),
      isThumbTrigger p = false →
      statFs fs (mainTarget root p) = some (.file sz mt content) →
      ((∃ m, handleRequest sysMime fs root p view = Response.media m) ↔
        (view = "media" ∧
          isMediaCT (getContentType sysMime (absStr (mainTarget root p))) = true)) ∧
      (¬ (view = "media" ∧
          isMediaCT (getContentType sysMime (absStr (mainTarget root p))) = true) →
        handleRequest sysMime fs root p view =
          fileServerServe p (mainTarget root p)
            (serveCtype sysMime content (absStr (mainTarget root p)))) ∧
      (¬ (view = "media" ∧
          isMediaCT (getContentType sysMime (absStr (mainTarget root p))) = true) →
        (p.getLast?).getD "" ≠ "index.html" →
        (p.getLast?).getD "" ≠ "" →
        handleRequest sysMime fs root p view =
          Response.raw (mainTarget root p)
            (serveCtype sysMime content (absStr (mainTarget root p)))) := by
  intro sysMime fs root p view sz mt content ht h
  have hreq : handleRequest sysMime fs root p view =
      (if view = "media" ∧
          isMediaCT (getContentType sysMime (absStr (mainTarget root p))) = true then
        renderMediaViewer fs (mainTarget root p)
          (String.intercalate "/" (cleanSegs p))
          (getContentType sysMime (absStr (mainTarget root p)))
      else
        fileServerServe p (mainTarget root p)
          (serveCtype sysMime content (absStr (mainTarget root p)))) := by
    unfold handleRequest
    rw [if_neg (by simp [ht])]
    dsimp only
    rw [h]
  by_cases hc : view = "media" ∧
      isMediaCT (getContentType sysMime (absStr (mainTarget root p))) = true
  · rw [if_pos hc] at hreq
    refine ⟨?_, fun hn => absurd hc hn, fun hn => absurd hc hn⟩
    constructor
    · intro _; exact hc
    · intro _
      unfold renderMediaViewer at hreq
      rw [h] at hreq
      exact ⟨_, hreq⟩
  · rw [if_neg hc] at hreq
    refine ⟨?_, fun _ => hreq, ?_⟩
    · constructor
      · rintro ⟨m, hm⟩
        rw [hreq] at hm
        unfold fileServerServe at hm
        exfalso
        by_cases h1 : ((p.getLast?).getD "" = "index.html")
        · rw [if_pos h1] at hm; exact Response.noConfusion hm
        · rw [if_neg h1] at hm
          by_cases h2 : ((p.getLast?).getD "" = "")
          · rw [if_pos h2] at hm; exact Response.noConfusion hm
          · rw [if_neg h2] at hm; exact Response.noConfusion hm
      · intro hcc; exact absurd hcc hc
    · intro _ h1 h2
      rw [hreq]
      unfold fileServerServe
      rw [if_neg h1, if_neg h2]

/-- Witness for C2 (amended) on a JPEG image with and without the media
query: the viewer is rendered exactly with `view=media`, the raw transfer
happens otherwise. -/
theorem c2_media_iff_raw_witness :
    (∃ m, handleRequest builtinMime fsJpg root0 ["cat.jpg"] "media" = Response.media m) ∧
    handleRequest builtinMime fsJpg root0 ["cat.jpg"] "" =
      Response.raw ["srv", "root", "cat.jpg"] "image/jpeg" := by
  constructor
  · exact (c2_media_iff_raw builtinMime fsJpg root0 ["cat.jpg"] "media" 3 0 [255, 216, 255]
      (by decide) (by decide)).1.mpr (by decide)
  · have := (c2_media_iff_raw builtinMime fsJpg root0 ["cat.jpg"] "" 3 0 [255, 216, 255]
      (by decide) (by decide)).2.2 (by decide) (by decide) (by decide)
    rw [this]
    decide

/-- C5 (counterexample): for the file `pic.xyz` — an extension the registry
does not know, with PNG content — the thumbnail route answers with
Content-Type application/octet-stream (the resolver's fallback), while the
raw-transfer route sniffs the content and answers image/png: the two
routes' content types differ for the same file. -/
theorem c5_counterexample_ctype :
    handleRequest builtinMime fsPng root0 ["_thumbnail", "pic.xyz"] "" =
      Response.thumb ["srv", "root", "pic.xyz"] "application/octet-stream"
        "public, max-age=86400" ∧
    handleRequest builtinMime fsPng root0 ["pic.xyz"] "" =
      Response.raw ["srv", "root", "pic.xyz"] "image/png" ∧
    ("application/octet-stream" : String) ≠ "image/png" := by
  decide

/-- C5 (amended): a thumbnail request for an existing regular file — with
no ".." segment and no trailing magic "index.html" segment, which the
stdlib `ServeFile` would intercept — returns the 200 `thumb` response with
`Cache-Control: public, max-age=86400` and the resolver's content type for
the file; that content type agrees with the one the raw-transfer route
would use whenever the system MIME registry resolves the file's extension
(when the registry yields nothing, the raw route sniffs the content
instead and the two can differ). -/
theorem c5_thumbnail_headers :
    ∀ (sysMime : String → String) (fs : Fs) (root p : List String) (view : String)
      (sz mt : Int) (content : List Nat),
      isThumbTrigger p = true →
      hasDotDotSeg p = false →
      (p.getLast?).getD "" ≠ "index.html" →
      statFs fs (joinPath root p.tail) = some (.file sz mt content) →
      handleRequest sysMime fs root p view =
        Response.thumb (joinPath root p.tail)
          (getContentType sysMime (absStr (joinPath root p.tail))) "public, max-age=86400" ∧
      (sysMime (extOf (absStr (joinPath root p.tail))) ≠ "" →
        getContentType sysMime (absStr (joinPath root p.tail)) =
          serveCtype sysMime content (absStr (joinPath root p.tail))) := by
  intro sysMime fs root p view sz mt content ht hdd hidx hstat
  constructor
  · unfold handleRequest
    rw [if_pos ht]
    unfold serveThumbnail
    dsimp only
    rw [hstat]
    dsimp only
    rw [if_neg (by simp [hdd]), if_neg hidx]
  · intro hm
    unfold getContentType serveCtype
    dsimp only
    rw [if_neg hm, if_neg hm]

/-- Witness for C5 (amended) on `/cat.jpg`: the registry resolves ".jpg",
so the thumbnail and raw content types agree at image/jpeg. -/
theorem c5_thumbnail_headers_witness :
    handleRequest builtinMime fsJpg root0 ["_thumbnail", "cat.jpg"] "" =
      Response.thumb ["srv", "root", "cat.jpg"] "image/jpeg" "public, max-age=86400" ∧
    getContentType builtinMime (absStr (joinPath root0 (["_thumbnail", "cat.jpg"].tail))) =
      serveCtype builtinMime [255, 216, 255]
        (absStr (joinPath root0 (["_thumbnail", "cat.jpg"].tail))) := by
  have h := c5_thumbnail_headers builtinMime fsJpg root0 ["_thumbnail", "cat.jpg"] "" 3 0
    [255, 216, 255] (by decide) (by decide) (by decide) (by decide)
  refine ⟨?_, h.2 (by decide)⟩
  rw [h.1]
  decide

/-- C10 (counterexample): a regular file named `_thumbnail` under the root
is not shadowed — the bare path `/_thumbnail` (no trailing slash) misses
the `/_thumbnail/` dispatch test and the normal route serves the file's
own bytes raw. -/
theorem c10_counterexample_bare_path :
    statFs fsUnder (root0 ++ ["_thumbnail"]) = some (.file 2 0 [104, 105]) ∧
    isThumbTrigger ["_thumbnail"] = false ∧
    handleRequest builtinMime fsUnder root0 ["_thumbnail"] "" =
      Response.raw ["srv", "root", "_thumbnail"] "text/plain; charset=utf-8" := by
  decide

/-- C10 (amended): every path beginning with `/_thumbnail/` is dispatched,
before any other check, to the thumbnail responder, whose target strips
exactly the one marker segment; consequently, for cleaned request paths,
no non-thumbnail route can resolve strictly below a real `_thumbnail`
entry.  The entry itself is not shadowed: the bare path `/_thumbnail`
bypasses the thumbnail dispatch and the normal route serves a file of that
name raw. -/
theorem c10_thumbnail_routing :
    (∀ (sysMime : String → String) (fs : Fs) (root p : List String) (view : String),
      isThumbTrigger p = true →
      handleRequest sysMime fs root p view = serveThumbnail sysMime fs root p) ∧
    (∀ root p : List String, isThumbTrigger p = true →
      resolvedTarget root p = joinPath root p.tail) ∧
    (∀ (root p rest : List String),
      noSpecialB root = true → noSpecialB p = true → isThumbTrigger p = false →
      mainTarget root p = root ++ ("_thumbnail" :: rest) → rest = []) ∧
    (∀ (sysMime : String → String) (fs : Fs) (root : List String) (sz mt : Int)
      (content : List Nat),
      noSpecialB root = true →
      statFs fs (root ++ ["_thumbnail"]) = some (.file sz mt content) →
      handleRequest sysMime fs root ["_thumbnail"] "" =
        Response.raw (root ++ ["_thumbnail"])
          (serveCtype sysMime content (absStr (root ++ ["_thumbnail"])))) := by
  refine ⟨?_, ?_, ?_, ?_⟩
  · intro sysMime fs root p view ht
    unfold handleRequest
    rw [if_pos ht]
  · intro root p ht
    unfold resolvedTarget
    rw [if_pos ht]
  · intro root p rest hr hp ht hm
    have hmt : mainTarget root p = root ++ p := by
      unfold mainTarget
      rw [cleanSegs_of_noSpecial p hp, joinPath_eq_append root p hr hp]
    rw [hmt] at hm
    have hp2 : p = "_thumbnail" :: rest := List.append_cancel_left hm
    subst hp2
    cases rest with
    | nil => rfl
    | cons r rs => simp [isThumbTrigger] at ht
  · intro sysMime fs root sz mt content hr hstat
    have hmt : mainTarget root ["_thumbnail"] = root ++ ["_thumbnail"] := by
      unfold mainTarget
      rw [show cleanSegs ["_thumbnail"] = ["_thumbnail"] from rfl,
        joinPath_eq_append root _ hr (by decide)]
    unfold handleRequest
    rw [if_neg (by decide)]
    dsimp only
    rw [hmt, hstat]
    dsimp only
    rw [if_neg (by simp)]
    unfold fileServerServe
    rw [if_neg (by decide), if_neg (by decide)]

/-- Witness for C10 (amended): the dispatch equality on a thumbnail path,
and the bare `/_thumbnail` path served raw by the normal route. -/
theorem c10_thumbnail_routing_witness :
    handleRequest builtinMime fsUnder root0 ["_thumbnail", "x.png"] "" =
      serveThumbnail builtinMime fsUnder root0 ["_thumbnail", "x.png"] ∧
    handleRequest builtinMime fsUnder root0 ["_thumbnail"] "" =
      Response.raw (root0 ++ ["_thumbnail"])
        (serveCtype builtinMime [104, 105] (absStr (root0 ++ ["_thumbnail"]))) :=
  ⟨c10_thumbnail_routing.1 builtinMime fsUnder root0 ["_thumbnail", "x.png"] "" (by decide),
    c10_thumbnail_routing.2.2.2 builtinMime fsUnder root0 2 0 [104, 105]
      (by decide) (by decide)⟩
